import Mathlib

/-!
# Verification of the battle-viewer core (src/Data/battle_viewer.py)

This file gives a shallow embedding of the battle-block segmentation,
selection, field-rewrite and record-building logic of
`src/Data/battle_viewer.py`, and proves or refutes the frozen claims
about it.

Modelling conventions:
* A Python string is embedded as a `List Char` (`PyStr`); the needed
  Python string primitives (`strip`, `startswith`, `split`, `join`,
  `lower`, substring containment, `int(...)` parsing) are defined
  faithfully below over `PyStr`.
* File input is modelled as the list of its lines, each line given
  without its trailing newline, exactly as the Python code sees them
  after `raw.rstrip` of the newline.  The full file text, used by the
  mode-selection substring test, is the newline-join of the lines (the
  two 5-character sigils contain no newline, so they occur in the text
  iff they occur in some line).
* `datetime.now` is an effect; the current-time string is passed in as
  an explicit `now` argument.
* The external `pokemon_showdown_replays` renderer is out of scope; the
  record builder is modelled up to the log dictionary handed to it.
-/

/-- A Python string, embedded as its list of characters. -/
abbrev PyStr := List Char

/-- Characters of a Lean string literal, used to write `PyStr` constants. -/
def S (s : String) : PyStr := s.data

/-- Python `str.isspace` on a single character (ASCII whitespace as used
by `str.strip()`). -/
def pyIsSpace (c : Char) : Bool :=
  c = ' ' || c = '\t' || c = '\n' || c = '\r' || c = '\x0b' || c = '\x0c'

/-- Python `s.strip()`: remove leading and trailing whitespace. -/
def pyStrip (s : PyStr) : PyStr :=
  ((s.dropWhile pyIsSpace).reverse.dropWhile pyIsSpace).reverse

/-- Python `s.startswith(p)` (first argument is the candidate start). -/
def pyStartsWith : PyStr → PyStr → Bool
  | [], _ => true
  | _ :: _, [] => false
  | a :: p, b :: s => a == b && pyStartsWith p s

/-- Python `s.split(sep)` for a one-character separator: no collapsing of
empty fields, always returns at least one field. -/
def pySplit (sep : Char) : PyStr → List PyStr
  | [] => [[]]
  | c :: cs =>
    if c = sep then [] :: pySplit sep cs
    else
      match pySplit sep cs with
      | [] => [[c]]
      | f :: r => (c :: f) :: r

/-- Python `sep.join(fields)` for a one-character separator. -/
def pyJoin (sep : Char) : List PyStr → PyStr
  | [] => []
  | [f] => f
  | f :: g :: r => f ++ sep :: pyJoin sep (g :: r)

/-- Python `s.lower()` (ASCII fragment, which is all the code relies on). -/
def pyLower (s : PyStr) : PyStr := s.map Char.toLower

/-- Python `needle in hay` substring containment. -/
def pyContainsSub (needle : PyStr) : PyStr → Bool
  | [] => needle.isEmpty
  | c :: cs => pyStartsWith needle (c :: cs) || pyContainsSub needle cs

/-- Python `x or default` for an optional string: `None` and the empty
string are falsy. -/
def pyOr (h : Option PyStr) (d : PyStr) : PyStr :=
  match h with
  | none => d
  | some s => if s = [] then d else s

/-- `parts[i]` if it exists, else the empty string.  The Python guard
`len(parts) > i and parts[i]` is exactly `(fieldAt parts i).isEmpty = false`,
since a missing field and an empty field fail the guard alike. -/
def fieldAt (parts : List PyStr) (i : Nat) : PyStr := parts.getD i []

/-- Python `list.insert(i, x)`: insert before position `i`, appending when
`i` exceeds the length. -/
def pyInsert (i : Nat) (x : α) (l : List α) : List α :=
  l.take i ++ [x] ++ l.drop i

/-- Digit run of a Python integer literal: digits with single interior
underscores allowed between digits, as accepted by `int(...)`. -/
def pyDigits (acc : Nat) : PyStr → Option Nat
  | [] => some acc
  | c :: cs =>
    if c.isDigit then pyDigits (acc * 10 + (c.toNat - 48)) cs
    else if c = '_' then
      match cs with
      | d :: cs2 => if d.isDigit then pyDigits (acc * 10 + (d.toNat - 48)) cs2 else none
      | [] => none
    else none

/-- Python `int(s)`: optional surrounding whitespace, optional sign, then a
digit run.  Returns `none` where `int` raises. -/
def pyParseInt (s : PyStr) : Option Int :=
  let t := pyStrip s
  match t with
  | '+' :: (d :: rest) => if d.isDigit then (pyDigits 0 (d :: rest)).map Int.ofNat else none
  | '-' :: (d :: rest) => if d.isDigit then (pyDigits 0 (d :: rest)).map (fun n => -(n : Int)) else none
  | d :: rest => if d.isDigit then (pyDigits 0 (d :: rest)).map Int.ofNat else none
  | [] => none

/-- Decimal digits of a natural number. -/
def natToStr (n : Nat) : PyStr := Nat.toDigits 10 n

/-- Two-digit zero-padded decimal. -/
def pad2 (n : Nat) : PyStr := if n < 10 then '0' :: natToStr n else natToStr n

/-- Weekday abbreviations in `strftime` order (0 = Sunday). -/
def weekdayName (wd : Nat) : PyStr :=
  (([S "Sun", S "Mon", S "Tue", S "Wed", S "Thu", S "Fri", S "Sat"]).getD wd [])

/-- Month abbreviations, 1-indexed. -/
def monthName (m : Nat) : PyStr :=
  (([S "Jan", S "Feb", S "Mar", S "Apr", S "May", S "Jun", S "Jul",
     S "Aug", S "Sep", S "Oct", S "Nov", S "Dec"]).getD (m - 1) [])

/-- `datetime.fromtimestamp(epoch, tz=timezone.utc).strftime` of the fixed
pattern used by the code ("%a %b %d %Y %H:%M:%S"), via the standard
civil-from-days calendar conversion.  Only applied to epochs inside
`datetime`'s supported range. -/
def formatUTC (epoch : Int) : PyStr :=
  let days : Int := epoch.fdiv 86400
  let sod : Nat := (epoch - days * 86400).toNat
  let h : Nat := sod / 3600
  let mi : Nat := sod % 3600 / 60
  let sec : Nat := sod % 60
  let z : Int := days + 719468
  let era : Int := z.fdiv 146097
  let doe : Nat := (z - era * 146097).toNat
  let yoe : Nat := (doe - doe / 1460 + doe / 36524 - doe / 146096) / 365
  let y0 : Int := era * 400 + (yoe : Int)
  let doy : Nat := doe - (365 * yoe + yoe / 4 - yoe / 100)
  let mp : Nat := (5 * doy + 2) / 153
  let d : Nat := doy - (153 * mp + 2) / 5 + 1
  let m : Nat := if mp < 10 then mp + 3 else mp - 9
  let y : Int := if m ≤ 2 then y0 + 1 else y0
  let wd : Nat := ((days + 4).fmod 7).toNat
  weekdayName wd ++ S " " ++ monthName m ++ S " " ++ pad2 d ++ S " " ++
    natToStr y.toNat ++ S " " ++ pad2 h ++ S ":" ++ pad2 mi ++ S ":" ++ pad2 sec

/-! ## Data model and line classifier -/

/-- `START = "[[[[["` from the source. -/
def SSTART : PyStr := S "[[[[["

/-- `END = "]]]]]"` from the source. -/
def SEND : PyStr := S "]]]]]"

/-- `BattleBlock` dataclass: header plus the protocol lines (lines
starting with the sigil). -/
structure BattleBlock where
  header : PyStr
  protocol_lines : List PyStr
deriving DecidableEq

/-! ## Block segmenter (Marked mode): `iter_battles_marked` -/

/-- The mutable loop state of `iter_battles_marked`. -/
structure MState where
  in_block : Bool
  waiting_for_header : Bool
  header : Option PyStr
  protocol_lines : List PyStr
deriving DecidableEq

/-- Initial state of `iter_battles_marked`. -/
def initMState : MState := ⟨false, false, none, []⟩

/-- One iteration of the `for raw in f` loop of `iter_battles_marked`:
next state plus the blocks yielded on this line. -/
def stepMarked (st : MState) (line : PyStr) : MState × List BattleBlock :=
  if st.in_block = false then
    if pyStrip line = SSTART then (⟨true, true, none, []⟩, [])
    else (st, [])
  else if pyStrip line = SEND then
    (⟨false, false, none, []⟩,
      [⟨pyOr st.header (S "UNKNOWN_MATCHUP"), st.protocol_lines⟩])
  else if st.waiting_for_header then
    if (pyStrip line).isEmpty then (st, [])
    else ({ st with header := some (pyStrip line), waiting_for_header := false }, [])
  else if pyStartsWith (S "|") line then
    ({ st with protocol_lines := st.protocol_lines ++ [line] }, [])
  else (st, [])

/-- Run the marked-mode loop over the remaining lines: yielded blocks plus
final state.  Nothing is yielded at end of input (an unterminated block is
discarded, as in the generator). -/
def runMarked (st : MState) : List PyStr → List BattleBlock × MState
  | [] => ([], st)
  | l :: ls =>
    let s := stepMarked st l
    let r := runMarked s.1 ls
    (s.2 ++ r.1, r.2)

/-- `iter_battles_marked`, as the list of all yielded blocks. -/
def iter_battles_marked (lines : List PyStr) : List BattleBlock :=
  (runMarked initMState lines).1

/-! ## Fallback mode: `parse_single_battle_fallback` -/

/-- The loop of `parse_single_battle_fallback`: final header plus the
collected protocol lines, given the header state so far. -/
def fallbackGo (header : Option PyStr) : List PyStr → Option PyStr × List PyStr
  | [] => (header, [])
  | line :: rest =>
    if (pyStrip line).isEmpty then fallbackGo header rest
    else if header.isNone && !(pyStartsWith (S "|") line) then
      fallbackGo (some (pyStrip line)) rest
    else if pyStartsWith (S "|") line then
      let r := fallbackGo header rest
      (r.1, line :: r.2)
    else fallbackGo header rest

/-- `parse_single_battle_fallback`: the whole input as one block. -/
def parse_single_battle_fallback (lines : List PyStr) : BattleBlock :=
  let r := fallbackGo none lines
  ⟨pyOr r.1 (S "UNKNOWN_MATCHUP"), r.2⟩

/-! ## Mode selection: `iter_battles` -/

/-- The full file text as read by `path.read_text`: the newline-join of
the lines. -/
def file_text (lines : List PyStr) : PyStr := pyJoin '\n' lines

/-- `iter_battles`: marked mode iff both sigils occur somewhere in the
text, else the single fallback block. -/
def iter_battles (lines : List PyStr) : List BattleBlock :=
  if pyContainsSub SSTART (file_text lines) && pyContainsSub SEND (file_text lines) then
    iter_battles_marked lines
  else
    [parse_single_battle_fallback lines]

/-! ## Selection: `get_battle_by_index`, `get_battle_by_matchup` -/

/-- The two surfaced errors: `IndexError` from `get_battle_by_index`
(carrying the attempted index) and `ValueError` from
`get_battle_by_matchup` (carrying the key and requested occurrence). -/
inductive ViewerError where
  | OutOfRange (index : Int)
  | NotFound (matchup : PyStr) (occurrence : Int)
deriving DecidableEq

/-- The `enumerate` loop of `get_battle_by_index`. -/
def indexGo (index : Int) (i : Int) : List BattleBlock → Except ViewerError BattleBlock
  | [] => .error (.OutOfRange index)
  | b :: bs => if i = index then .ok b else indexGo index (i + 1) bs

/-- `get_battle_by_index`. -/
def get_battle_by_index (lines : List PyStr) (index : Int) : Except ViewerError BattleBlock :=
  indexGo index 0 (iter_battles lines)

/-- The scan loop of `get_battle_by_matchup`, with the precomputed
stripped-lowered target and the running hit count. -/
def matchupGo (target matchup : PyStr) (occurrence hits : Int) :
    List BattleBlock → Except ViewerError BattleBlock
  | [] => .error (.NotFound matchup occurrence)
  | b :: bs =>
    if pyLower (pyStrip b.header) = target then
      if hits = occurrence then .ok b
      else matchupGo target matchup occurrence (hits + 1) bs
    else matchupGo target matchup occurrence hits bs

/-- `get_battle_by_matchup`. -/
def get_battle_by_matchup (lines : List PyStr) (matchup : PyStr) (occurrence : Int) :
    Except ViewerError BattleBlock :=
  matchupGo (pyLower (pyStrip matchup)) matchup occurrence 0 (iter_battles lines)

/-! ## Field rewriter: `override_players` -/

/-- `fix_player_line`: split on the pipe, pad to at least 6 fields,
replace the name (index 3) and avatar (index 4) fields exactly when the
corresponding override was supplied, and rejoin. -/
def fix_player_line (line : PyStr) (name avatar : Option PyStr) : PyStr :=
  let parts := pySplit '|' line ++ List.replicate (6 - (pySplit '|' line).length) []
  let parts := match name with | some n => parts.set 3 n | none => parts
  let parts := match avatar with | some a => parts.set 4 a | none => parts
  pyJoin '|' parts

/-- The rewrite loop of `override_players`: the rewritten copy plus the
`found_p1` and `found_p2` flags. -/
def rewriteLines (p1_name p2_name p1_avatar p2_avatar : Option PyStr) :
    List PyStr → List PyStr × Bool × Bool
  | [] => ([], false, false)
  | ln :: rest =>
    let r := rewriteLines p1_name p2_name p1_avatar p2_avatar rest
    if pyStartsWith (S "|player|p1|") ln then
      (fix_player_line ln p1_name p1_avatar :: r.1, true, r.2.2)
    else if pyStartsWith (S "|player|p2|") ln then
      (fix_player_line ln p2_name p2_avatar :: r.1, r.2.1, true)
    else (ln :: r.1, r.2.1, r.2.2)

/-- The insertion-anchor search of `override_players`: index of the first
line starting with the start-record shape, if any. -/
def findStart : List PyStr → Option Nat
  | [] => none
  | ln :: rest =>
    if pyStartsWith (S "|start|") ln then some 0
    else (findStart rest).map (· + 1)

/-- The synthesized player-record line `"|player|" + side + "|" + name +
"|" + avatar + "|"`. -/
def mkPlayerLine (side name avatar : PyStr) : PyStr :=
  S "|player|" ++ side ++ S "|" ++ name ++ S "|" ++ avatar ++ S "|"

/-- `override_players`: rewrite matched player lines in place, then for
each side that was never found and has a supplied override, insert a
synthesized line at the anchor computed before the insertions (so a
second insertion lands before the first). -/
def override_players (protocol_lines : List PyStr)
    (p1_name p2_name p1_avatar p2_avatar : Option PyStr) : List PyStr :=
  let r := rewriteLines p1_name p2_name p1_avatar p2_avatar protocol_lines
  let insert_at := (findStart r.1).getD 0
  let out :=
    if !r.2.1 && (p1_name.isSome || p1_avatar.isSome) then
      pyInsert insert_at
        (mkPlayerLine (S "p1") (pyOr p1_name (S "p1")) (pyOr p1_avatar (S "1"))) r.1
    else r.1
  if !r.2.2 && (p2_name.isSome || p2_avatar.isSome) then
    pyInsert insert_at
      (mkPlayerLine (S "p2") (pyOr p2_name (S "p2")) (pyOr p2_avatar (S "1"))) out
  else out

/-! ## Record builder: `build_replay_object` -/

/-- The scan state of `build_replay_object`. -/
structure ScanState where
  p1 : PyStr
  p2 : PyStr
  fmt : PyStr
  ts : Option PyStr
deriving DecidableEq

/-- The `try`-block of the `|t:|` branch: `int(ln.split("|")[2])`
converted and formatted, `none` where any step raises (missing field,
unparsable integer, or an epoch outside `datetime`'s supported range,
year 1 to 9999). -/
def tsOfLine (ln : PyStr) : Option PyStr :=
  match (pySplit '|' ln).get? 2 with
  | none => none
  | some f =>
    match pyParseInt f with
    | none => none
    | some n =>
      if -62135596800 ≤ n ∧ n ≤ 253402300799 then some (formatUTC n) else none

/-- One iteration of the extraction loop of `build_replay_object`. -/
def scanLine (st : ScanState) (ln : PyStr) : ScanState :=
  if pyStartsWith (S "|player|p1|") ln then
    if (fieldAt (pySplit '|' ln) 3).isEmpty then st
    else { st with p1 := fieldAt (pySplit '|' ln) 3 }
  else if pyStartsWith (S "|player|p2|") ln then
    if (fieldAt (pySplit '|' ln) 3).isEmpty then st
    else { st with p2 := fieldAt (pySplit '|' ln) 3 }
  else if pyStartsWith (S "|tier|") ln then
    if (fieldAt (pySplit '|' ln) 2).isEmpty then st
    else { st with fmt := fieldAt (pySplit '|' ln) 2 }
  else if st.ts.isNone && pyStartsWith (S "|t:|") ln then
    { st with ts := tsOfLine ln }
  else st

/-- The log dictionary built by `build_replay_object` and handed to the
external renderer (whose call is outside this model). -/
structure LogDict where
  p1 : PyStr
  p2 : PyStr
  log : List PyStr
  inputLog : PyStr
  roomid : PyStr
  format : PyStr
  timestamp : PyStr
deriving DecidableEq

/-- `build_replay_object` up to the dictionary passed to the external
renderer; `now` is the formatted current UTC time used on timestamp
absence or parse failure. -/
def build_replay_object (protocol_lines : List PyStr) (roomid : PyStr) (now : PyStr) : LogDict :=
  let st := protocol_lines.foldl scanLine ⟨S "p1", S "p2", S "Custom Game", none⟩
  { p1 := st.p1
    p2 := st.p2
    log := protocol_lines ++ [[]]
    inputLog := []
    roomid := roomid
    format := st.fmt
    timestamp := st.ts.getD now }

/-! ## Derived predicates used in the specifications of the claims -/

/-- Well-formed marked input with exactly `n` start/end marker pairs:
non-marker junk may precede, follow, or separate the regions, and each
region is a start-marker line, a body without marker lines, and an
end-marker line. -/
inductive MarkedWF : List PyStr → Nat → Prop where
  | nil : MarkedWF [] 0
  | junk {l : PyStr} {ls : List PyStr} {n : Nat} :
      pyStrip l ≠ SSTART → pyStrip l ≠ SEND → MarkedWF ls n → MarkedWF (l :: ls) n
  | block {s e : PyStr} {body rest : List PyStr} {n : Nat} :
      pyStrip s = SSTART →
      (∀ l ∈ body, pyStrip l ≠ SSTART ∧ pyStrip l ≠ SEND) →
      pyStrip e = SEND →
      MarkedWF rest n →
      MarkedWF (s :: (body ++ e :: rest)) (n + 1)

/-- The header-candidate predicate of fallback mode: first line that is
non-empty after trimming and does not start with the sigil. -/
def headerCand (l : PyStr) : Bool := !(pyStrip l).isEmpty && !(pyStartsWith (S "|") l)

/-- A p1 player-record line carrying a non-empty name field. -/
def playerField1 (l : PyStr) : Bool :=
  pyStartsWith (S "|player|p1|") l && !(fieldAt (pySplit '|' l) 3).isEmpty

/-- A p2 player-record line carrying a non-empty name field. -/
def playerField2 (l : PyStr) : Bool :=
  pyStartsWith (S "|player|p2|") l && !(fieldAt (pySplit '|' l) 3).isEmpty

/-- A tier record line carrying a non-empty format field. -/
def tierField (l : PyStr) : Bool :=
  pyStartsWith (S "|tier|") l && !(fieldAt (pySplit '|' l) 2).isEmpty

/-- The timestamp attempt on one line: the formatted value for a `|t:|`
line whose field parses, `none` otherwise. -/
def tsTry (l : PyStr) : Option PyStr :=
  if pyStartsWith (S "|t:|") l then tsOfLine l else none

/-- The awaiting-header state used in the C9 witness. -/
def awaitSt : MState := ⟨true, true, none, []⟩

/-! ## Lemmas about the marked-mode segmenter -/

theorem stepMarked_outside_junk {st : MState} {l : PyStr} (h : st.in_block = false)
    (hs : pyStrip l ≠ SSTART) : stepMarked st l = (st, []) := by
  simp [stepMarked, h, hs]

theorem stepMarked_outside_start {st : MState} {l : PyStr} (h : st.in_block = false)
    (hs : pyStrip l = SSTART) : stepMarked st l = (⟨true, true, none, []⟩, []) := by
  simp [stepMarked, h, hs]

theorem stepMarked_inside_end {st : MState} {l : PyStr} (h : st.in_block = true)
    (he : pyStrip l = SEND) :
    stepMarked st l =
      (⟨false, false, none, []⟩,
        [⟨pyOr st.header (S "UNKNOWN_MATCHUP"), st.protocol_lines⟩]) := by
  simp [stepMarked, h, he]

theorem stepMarked_no_emit {st : MState} {l : PyStr}
    (h : st.in_block = false ∨ pyStrip l ≠ SEND) : (stepMarked st l).2 = [] := by
  rcases h with h | h
  · unfold stepMarked
    rw [if_pos h]
    split <;> rfl
  · unfold stepMarked
    split_ifs <;> simp_all

theorem stepMarked_keeps_in_block {st : MState} {l : PyStr} (h : st.in_block = true)
    (he : pyStrip l ≠ SEND) : (stepMarked st l).1.in_block = true := by
  simp only [stepMarked, h]
  split_ifs <;> simp [h]

theorem runMarked_append (xs ys : List PyStr) (st : MState) :
    runMarked st (xs ++ ys) =
      ((runMarked st xs).1 ++ (runMarked (runMarked st xs).2 ys).1,
        (runMarked (runMarked st xs).2 ys).2) := by
  induction xs generalizing st with
  | nil => simp [runMarked]
  | cons l ls ih => simp [runMarked, ih, List.append_assoc]

theorem runMarked_no_end_emits_nil (ys : List PyStr) (st : MState)
    (h : ∀ l ∈ ys, pyStrip l ≠ SEND) : (runMarked st ys).1 = [] := by
  induction ys generalizing st with
  | nil => rfl
  | cons l ls ih =>
    have h1 : (stepMarked st l).2 = [] := stepMarked_no_emit (Or.inr (h l (by simp)))
    simp [runMarked, h1, ih _ (fun x hx => h x (by simp [hx]))]

theorem runMarked_no_end_in_block (ys : List PyStr) (st : MState)
    (hin : st.in_block = true) (h : ∀ l ∈ ys, pyStrip l ≠ SEND) :
    (runMarked st ys).2.in_block = true := by
  induction ys generalizing st with
  | nil => exact hin
  | cons l ls ih =>
    simp only [runMarked]
    exact ih _ (stepMarked_keeps_in_block hin (h l (by simp)))
      (fun x hx => h x (by simp [hx]))

/-- C3: for every well-formed marked input, segmenting in Marked mode and
counting the emitted Battle Blocks equals the number of start/end marker
pairs in the input. -/
theorem marked_segmentation_counts_pairs (lines : List PyStr) (n : Nat)
    (h : MarkedWF lines n) : (iter_battles_marked lines).length = n := by
  induction h with
  | nil => rfl
  | junk hS hE hrest ih =>
    have hstep := stepMarked_outside_junk (show initMState.in_block = false from rfl) hS
    simpa [iter_battles_marked, runMarked, hstep] using ih
  | @block s e body rest m hs hbody he hrest ih =>
    have hstep := stepMarked_outside_start (show initMState.in_block = false from rfl) hs
    simp only [iter_battles_marked, runMarked, hstep] at ih ⊢
    rw [runMarked_append]
    have hb1 : (runMarked ⟨true, true, none, []⟩ body).1 = [] :=
      runMarked_no_end_emits_nil _ _ (fun l hl => (hbody l hl).2)
    have hb2 : (runMarked ⟨true, true, none, []⟩ body).2.in_block = true :=
      runMarked_no_end_in_block _ _ rfl (fun l hl => (hbody l hl).2)
    have hstepE := stepMarked_inside_end hb2 he
    simp [runMarked, hstepE, hb1, initMState] at ih ⊢
    omega

theorem marked_segmentation_counts_pairs_witness :
    MarkedWF [S "[[[[[", S "A vs B", S "]]]]]"] 1 ∧
      (iter_battles_marked [S "[[[[[", S "A vs B", S "]]]]]"]).length = 1 :=
  ⟨@MarkedWF.block (S "[[[[[") (S "]]]]]") [S "A vs B"] [] 0
      (by decide) (by decide) (by decide) MarkedWF.nil,
    marked_segmentation_counts_pairs _ _
      (@MarkedWF.block (S "[[[[[") (S "]]]]]") [S "A vs B"] [] 0
        (by decide) (by decide) (by decide) MarkedWF.nil)⟩

/-- C4: in Marked mode, a trailing region that begins with a start marker
and contains no end-marker line adds no blocks: the output equals that of
the input without the trailing region (the partial block is discarded). -/
theorem unterminated_trailing_region_discarded (lines : List PyStr) (s : PyStr)
    (tail : List PyStr) (_hs : pyStrip s = SSTART)
    (hne : ∀ l ∈ s :: tail, pyStrip l ≠ SEND) :
    iter_battles_marked (lines ++ s :: tail) = iter_battles_marked lines := by
  simp only [iter_battles_marked, runMarked_append]
  have h0 := runMarked_no_end_emits_nil (s :: tail) (runMarked initMState lines).2 hne
  simp [h0]

theorem unterminated_trailing_region_discarded_witness :
    (pyStrip (S "[[[[[") = SSTART ∧ (∀ l ∈ [S "[[[[[", S "|x|"], pyStrip l ≠ SEND)) ∧
      iter_battles_marked ([S "[[[[[", S "A", S "]]]]]"] ++ [S "[[[[[", S "|x|"]) =
        iter_battles_marked [S "[[[[[", S "A", S "]]]]]"] :=
  ⟨⟨by decide, by decide⟩,
    unterminated_trailing_region_discarded _ _ _ (by decide) (by decide)⟩

/-! ## Lemmas about fallback mode -/

theorem eq_nil_of_isEmpty {α : Type} {l : List α} (h : l.isEmpty = true) : l = [] := by
  cases l with
  | nil => rfl
  | cons a t => simp [List.isEmpty] at h

theorem isEmpty_false_of_ne {α : Type} {l : List α} (h : l ≠ []) : l.isEmpty = false := by
  cases l with
  | nil => exact absurd rfl h
  | cons a t => rfl

theorem pyStrip_ne_nil_of_head {c : Char} {t : PyStr} (hc : pyIsSpace c = false) :
    pyStrip (c :: t) ≠ [] := by
  intro hcontra
  unfold pyStrip at hcontra
  simp only [List.dropWhile_cons, hc, Bool.false_eq_true, if_false,
    List.reverse_eq_nil_iff, List.dropWhile_eq_nil_iff] at hcontra
  have := hcontra c (by simp)
  rw [hc] at this
  exact Bool.false_ne_true this

/-- A line starting with the protocol sigil is never blank. -/
theorem pipe_not_blank {l : PyStr} (h : pyStartsWith (S "|") l = true) :
    (pyStrip l).isEmpty = false := by
  have h' : pyStartsWith ['|'] l = true := h
  cases l with
  | nil => simp [pyStartsWith] at h'
  | cons c t =>
    simp only [pyStartsWith, Bool.and_eq_true, beq_iff_eq] at h'
    exact isEmpty_false_of_ne (h'.1 ▸ pyStrip_ne_nil_of_head (by decide))

theorem fallbackGo_protocol (lines : List PyStr) :
    ∀ h0, (fallbackGo h0 lines).2 = lines.filter (fun l => pyStartsWith (S "|") l) := by
  induction lines with
  | nil => intro h0; rfl
  | cons l ls ih =>
    intro h0
    cases hb : (pyStrip l).isEmpty with
    | true =>
      have hp : pyStartsWith (S "|") l = false := by
        cases hpp : pyStartsWith (S "|") l with
        | false => rfl
        | true => rw [pipe_not_blank hpp] at hb; exact absurd hb Bool.false_ne_true
      simp [fallbackGo, hb, List.filter_cons, hp, ih]
    | false =>
      cases hp : pyStartsWith (S "|") l with
      | true => simp [fallbackGo, hb, hp, List.filter_cons, ih]
      | false =>
        cases hn : h0.isNone with
        | true => simp [fallbackGo, hb, hp, hn, List.filter_cons, ih]
        | false => simp [fallbackGo, hb, hp, hn, List.filter_cons, ih]

theorem fallbackGo_header_some (lines : List PyStr) (h : PyStr) :
    (fallbackGo (some h) lines).1 = some h := by
  induction lines with
  | nil => rfl
  | cons l ls ih =>
    simp only [fallbackGo]
    split_ifs <;> simp_all

theorem fallbackGo_header_none (lines : List PyStr) :
    (fallbackGo none lines).1 = (lines.find? headerCand).map pyStrip := by
  induction lines with
  | nil => rfl
  | cons l ls ih =>
    cases hb : (pyStrip l).isEmpty with
    | true =>
      have : ¬headerCand l = true := by simp [headerCand, hb]
      rw [List.find?_cons_of_neg _ this]
      simpa [fallbackGo, hb] using ih
    | false =>
      cases hp : pyStartsWith (S "|") l with
      | true =>
        have : ¬headerCand l = true := by simp [headerCand, hp]
        rw [List.find?_cons_of_neg _ this]
        simpa [fallbackGo, hb, hp] using ih
      | false =>
        have : headerCand l = true := by simp [headerCand, hb, hp]
        rw [List.find?_cons_of_pos _ this]
        simp [fallbackGo, hb, hp, fallbackGo_header_some]

/-- C5: when either sigil is absent from the text, segmentation yields
exactly one block whose protocol lines are the lines beginning with the
sigil, in order, and whose header is the trimmed first non-blank
non-protocol line (or the sentinel). -/
theorem fallback_single_block (lines : List PyStr)
    (h : pyContainsSub SSTART (file_text lines) = false ∨
        pyContainsSub SEND (file_text lines) = false) :
    iter_battles lines =
      [⟨(match lines.find? headerCand with
          | some l => pyStrip l
          | none => S "UNKNOWN_MATCHUP"),
        lines.filter (fun l => pyStartsWith (S "|") l)⟩] := by
  have hmode : (pyContainsSub SSTART (file_text lines) &&
      pyContainsSub SEND (file_text lines)) = false := by
    rcases h with h | h <;> simp [h]
  rw [iter_battles, hmode]
  simp only [Bool.false_eq_true, if_false]
  unfold parse_single_battle_fallback
  have hp := fallbackGo_protocol lines none
  have hh := fallbackGo_header_none lines
  cases hf : lines.find? headerCand with
  | none => simp [hh, hf, hp, pyOr]
  | some l =>
    have hpred : headerCand l = true := List.find?_some hf
    have hne : pyStrip l ≠ [] := by
      simp only [headerCand, Bool.and_eq_true, Bool.not_eq_true'] at hpred
      intro hcontra
      rw [hcontra] at hpred
      simp [List.isEmpty] at hpred
    simp [hh, hf, hp, pyOr, hne]

theorem fallback_single_block_witness :
    (pyContainsSub SSTART (file_text [S "A vs B", S "|x|"]) = false) ∧
      iter_battles [S "A vs B", S "|x|"] =
        [⟨(match ([S "A vs B", S "|x|"]).find? headerCand with
            | some l => pyStrip l
            | none => S "UNKNOWN_MATCHUP"),
          ([S "A vs B", S "|x|"]).filter (fun l => pyStartsWith (S "|") l)⟩] :=
  ⟨by decide, fallback_single_block [S "A vs B", S "|x|"] (Or.inl (by decide))⟩

/-! ## Lemmas about selection -/

theorem indexGo_neg (bs : List BattleBlock) (index : Int) :
    ∀ i : Int, index < 0 → 0 ≤ i →
      indexGo index i bs = .error (.OutOfRange index) := by
  induction bs with
  | nil => intro i _ _; rfl
  | cons b t ih =>
    intro i hneg hi
    have hne : ¬i = index := by omega
    rw [indexGo, if_neg hne]
    exact ih (i + 1) hneg (by omega)

/-- C10: selecting by a negative index always fails with the index error,
even though the block sequence always has at least `index + 1` blocks for
a negative `index`. -/
theorem negative_index_out_of_range (lines : List PyStr) (index : Int)
    (h : index < 0) :
    get_battle_by_index lines index = .error (.OutOfRange index) ∧
      index + 1 ≤ ((iter_battles lines).length : Int) := by
  refine ⟨indexGo_neg _ _ 0 h (by omega), ?_⟩
  have h0 : (0 : Int) ≤ ((iter_battles lines).length : Int) := Int.ofNat_nonneg _
  omega

theorem negative_index_out_of_range_witness :
    (-1 : Int) < 0 ∧
      (get_battle_by_index [] (-1) = .error (.OutOfRange (-1)) ∧
        (-1 : Int) + 1 ≤ ((iter_battles []).length : Int)) :=
  ⟨by decide, negative_index_out_of_range [] (-1) (by decide)⟩

theorem matchupGo_spec (target m : PyStr) (bs : List BattleBlock) :
    ∀ h k : Nat,
      matchupGo target m ((h + k : Nat) : Int) ((h : Nat) : Int) bs =
        (match (bs.filter (fun b => pyLower (pyStrip b.header) == target))[k]? with
          | some b => .ok b
          | none => .error (.NotFound m ((h + k : Nat) : Int))) := by
  induction bs with
  | nil => intro h k; rfl
  | cons b t ih =>
    intro h k
    by_cases hm : pyLower (pyStrip b.header) = target
    · have hb : (pyLower (pyStrip b.header) == target) = true := by simp [hm]
      cases k with
      | zero =>
        have heq : ((h : Nat) : Int) = ((h + 0 : Nat) : Int) := by simp
        rw [matchupGo, if_pos hm, if_pos heq]
        simp [List.filter_cons, hb]
      | succ k' =>
        have hne : ¬((h : Nat) : Int) = ((h + (k' + 1) : Nat) : Int) := by push_cast; omega
        have e1 : ((h + (k' + 1) : Nat) : Int) = (((h + 1) + k' : Nat) : Int) := by
          push_cast; ring
        have e2 : ((h : Nat) : Int) + 1 = ((h + 1 : Nat) : Int) := by push_cast; ring
        rw [matchupGo, if_pos hm, if_neg hne, e1, e2, ih (h + 1) k']
        simp [List.filter_cons, hb]
    · have hb : (pyLower (pyStrip b.header) == target) = false := by simp [hm]
      rw [matchupGo, if_neg hm, ih h k]
      simp [List.filter_cons, hb]

/-- C8: matchup selection compares stripped-lowercased headers against the
stripped-lowercased key, returns the occurrence-th (zero-based) matching
block in emission order, and fails with the not-found error (carrying key
and occurrence) when fewer than occurrence+1 matches exist; in particular
occurrence 1 with exactly one matching block fails. -/
theorem matchup_selection (lines : List PyStr) (matchup : PyStr) (occ : Nat) :
    (get_battle_by_matchup lines matchup (occ : Int) =
      (match ((iter_battles lines).filter
          (fun b => pyLower (pyStrip b.header) == pyLower (pyStrip matchup)))[occ]? with
        | some b => .ok b
        | none => .error (.NotFound matchup (occ : Int)))) ∧
      get_battle_by_matchup [S "[[[[[", S "Alder vs Alder", S "]]]]]"]
          (S "Alder vs Alder") 1 = .error (.NotFound (S "Alder vs Alder") 1) := by
  refine ⟨?_, rfl⟩
  have h := matchupGo_spec (pyLower (pyStrip matchup)) matchup (iter_battles lines) 0 occ
  simpa [get_battle_by_matchup] using h

/-! ## Prefix exclusivity -/

theorem pyStartsWith_comparable : ∀ (p q l : PyStr), pyStartsWith p l = true →
    pyStartsWith q l = true → pyStartsWith p q = true ∨ pyStartsWith q p = true
  | [], _, _, _, _ => Or.inl rfl
  | _ :: _, [], _, _, _ => Or.inr rfl
  | _ :: _, _ :: _, [], h1, _ => by simp [pyStartsWith] at h1
  | a :: p, b :: q, c :: l, h1, h2 => by
    simp only [pyStartsWith, Bool.and_eq_true, beq_iff_eq] at h1 h2 ⊢
    obtain ⟨h1a, hp⟩ := h1
    obtain ⟨h2a, hq⟩ := h2
    rcases pyStartsWith_comparable p q l hp hq with h | h
    · exact Or.inl ⟨h1a.trans h2a.symm, h⟩
    · exact Or.inr ⟨h2a.trans h1a.symm, h⟩

/-- Two record prefixes of which neither starts with the other never match
the same line. -/
theorem not_starts_of_incomp {p q : PyStr} (hpq : pyStartsWith p q = false)
    (hqp : pyStartsWith q p = false) {l : PyStr} (hp : pyStartsWith p l = true) :
    pyStartsWith q l = false := by
  cases hq : pyStartsWith q l with
  | false => rfl
  | true =>
    rcases pyStartsWith_comparable p q l hp hq with h | h
    · rw [hpq] at h; exact absurd h Bool.false_ne_true
    · rw [hqp] at h; exact absurd h Bool.false_ne_true

/-! ## Lemmas about the field rewriter -/

theorem pySplit_ne_nil (sep : Char) (s : PyStr) : pySplit sep s ≠ [] := by
  cases s with
  | nil => simp [pySplit]
  | cons c cs =>
    unfold pySplit
    by_cases hc : c = sep
    · simp [hc]
    · rw [if_neg hc]
      cases h : pySplit sep cs with
      | nil => simp
      | cons f r => simp

theorem pyJoin_pySplit (sep : Char) (s : PyStr) : pyJoin sep (pySplit sep s) = s := by
  induction s with
  | nil => rfl
  | cons c cs ih =>
    by_cases hc : c = sep
    · cases hsplit : pySplit sep cs with
      | nil => exact absurd hsplit (pySplit_ne_nil sep cs)
      | cons g r =>
        rw [hsplit] at ih
        simp [pySplit, hc, hsplit, pyJoin, ih]
    · cases hsplit : pySplit sep cs with
      | nil => exact absurd hsplit (pySplit_ne_nil sep cs)
      | cons f r =>
        rw [hsplit] at ih
        cases r with
        | nil => simp [pySplit, hc, hsplit, pyJoin] at ih ⊢; simp [ih]
        | cons g r2 => simp [pySplit, hc, hsplit, pyJoin] at ih ⊢; simp [ih]

theorem map_id_of_mem {α : Type} {f : α → α} :
    ∀ {l : List α}, (∀ a ∈ l, f a = a) → l.map f = l := by
  intro l h
  induction l with
  | nil => rfl
  | cons a t ih => simp [h a (by simp), ih (fun x hx => h x (by simp [hx]))]

theorem map_congr_mem {α β : Type} {f g : α → β} :
    ∀ {l : List α}, (∀ a ∈ l, f a = g a) → l.map f = l.map g := by
  intro l h
  induction l with
  | nil => rfl
  | cons a t ih => simp [h a (by simp), ih (fun x hx => h x (by simp [hx]))]

/-- `fix_player_line` on a line that already has at least six pipe fields
pads nothing. -/
theorem fix_player_line_len6 {l : PyStr} (h : 6 ≤ (pySplit '|' l).length)
    (n a : Option PyStr) :
    fix_player_line l n a =
      pyJoin '|'
        (match a with
          | some av => (match n with
              | some nm => (pySplit '|' l).set 3 nm
              | none => pySplit '|' l).set 4 av
          | none => match n with
              | some nm => (pySplit '|' l).set 3 nm
              | none => pySplit '|' l) := by
  unfold fix_player_line
  rw [Nat.sub_eq_zero_of_le h, List.replicate_zero, List.append_nil]

theorem fix_player_line_id {l : PyStr} (h : 6 ≤ (pySplit '|' l).length) :
    fix_player_line l none none = l := by
  rw [fix_player_line_len6 h]
  exact pyJoin_pySplit '|' l

theorem fix_player_line_name {l : PyStr} (h : 6 ≤ (pySplit '|' l).length) (n : PyStr) :
    fix_player_line l (some n) none = pyJoin '|' ((pySplit '|' l).set 3 n) := by
  rw [fix_player_line_len6 h]

theorem rewriteLines_spec (p1n p2n p1a p2a : Option PyStr) (lines : List PyStr) :
    rewriteLines p1n p2n p1a p2a lines =
      (lines.map (fun ln =>
          if pyStartsWith (S "|player|p1|") ln then fix_player_line ln p1n p1a
          else if pyStartsWith (S "|player|p2|") ln then fix_player_line ln p2n p2a
          else ln),
        lines.any (fun ln => pyStartsWith (S "|player|p1|") ln),
        lines.any (fun ln => pyStartsWith (S "|player|p2|") ln)) := by
  induction lines with
  | nil => rfl
  | cons l ls ih =>
    by_cases h1 : pyStartsWith (S "|player|p1|") l = true
    · have h2 : pyStartsWith (S "|player|p2|") l = false :=
        not_starts_of_incomp (by decide) (by decide) h1
      simp [rewriteLines, h1, h2, ih]
    · have h1' : pyStartsWith (S "|player|p1|") l = false := by
        cases hh : pyStartsWith (S "|player|p1|") l with
        | false => rfl
        | true => exact absurd hh h1
      by_cases h2 : pyStartsWith (S "|player|p2|") l = true
      · simp [rewriteLines, h1', h2, ih]
      · have h2' : pyStartsWith (S "|player|p2|") l = false := by
          cases hh : pyStartsWith (S "|player|p2|") l with
          | false => rfl
          | true => exact absurd hh h2
        simp [rewriteLines, h1', h2', ih]

theorem findStart_getD_le (lines : List PyStr) :
    (findStart lines).getD 0 ≤ lines.length := by
  induction lines with
  | nil => simp [findStart]
  | cons l ls ih =>
    by_cases h : pyStartsWith (S "|start|") l = true
    · simp [findStart, h]
    · have h' : pyStartsWith (S "|start|") l = false := by
        cases hh : pyStartsWith (S "|start|") l with
        | false => rfl
        | true => exact absurd hh h
      cases hf : findStart ls with
      | none => simp [findStart, h', hf]
      | some i =>
        rw [hf] at ih
        have ih' : i ≤ ls.length := by simpa using ih
        simp [findStart, h', hf]
        omega

theorem pyInsert_twice {α : Type} (k : Nat) (x y : α) (l : List α) (hk : k ≤ l.length) :
    pyInsert k y (pyInsert k x l) = l.take k ++ [y, x] ++ l.drop k := by
  unfold pyInsert
  have hlen : (l.take k).length = k := by rw [List.length_take]; omega
  have h1 : l.take k ++ [x] ++ l.drop k = l.take k ++ ([x] ++ l.drop k) := by
    rw [List.append_assoc]
  rw [h1, List.take_left' hlen, List.drop_left' hlen]
  simp

/-- C7: with no player-record line for either side and both name overrides
supplied, the rewrite inserts exactly two synthesized player lines at the
position of the first start-record line (or position 0), all other lines
unchanged and in order.  The second insertion happens at the same
precomputed anchor, so the p2 line lands just before the p1 line. -/
theorem insert_both_players (lines : List PyStr) (a b : PyStr)
    (h : ∀ l ∈ lines, pyStartsWith (S "|player|p1|") l = false ∧
        pyStartsWith (S "|player|p2|") l = false) :
    override_players lines (some a) (some b) none none =
      lines.take ((findStart lines).getD 0) ++
        [mkPlayerLine (S "p2") (pyOr (some b) (S "p2")) (S "1"),
          mkPlayerLine (S "p1") (pyOr (some a) (S "p1")) (S "1")] ++
        lines.drop ((findStart lines).getD 0) := by
  have hany1 : lines.any (fun ln => pyStartsWith (S "|player|p1|") ln) = false := by
    rw [List.any_eq_false]
    intro x hx
    simp [(h x hx).1]
  have hany2 : lines.any (fun ln => pyStartsWith (S "|player|p2|") ln) = false := by
    rw [List.any_eq_false]
    intro x hx
    simp [(h x hx).2]
  have hmap : lines.map (fun ln =>
      if pyStartsWith (S "|player|p1|") ln then fix_player_line ln (some a) none
      else if pyStartsWith (S "|player|p2|") ln then fix_player_line ln (some b) none
      else ln) = lines :=
    map_id_of_mem (fun l hl => by simp [(h l hl).1, (h l hl).2])
  simp only [override_players, rewriteLines_spec, hany1, hany2, hmap, Bool.not_false,
    Bool.true_and, Option.isSome_some, Option.isSome_none, Bool.true_or, Bool.or_false,
    if_true, pyOr]
  exact pyInsert_twice _ _ _ _ (findStart_getD_le lines)

theorem insert_both_players_witness :
    (∀ l ∈ [S "|tier|X|", S "|start|"], pyStartsWith (S "|player|p1|") l = false ∧
        pyStartsWith (S "|player|p2|") l = false) ∧
      override_players [S "|tier|X|", S "|start|"] (some (S "A")) (some (S "B")) none none =
        ([S "|tier|X|", S "|start|"]).take ((findStart [S "|tier|X|", S "|start|"]).getD 0) ++
          [mkPlayerLine (S "p2") (pyOr (some (S "B")) (S "p2")) (S "1"),
            mkPlayerLine (S "p1") (pyOr (some (S "A")) (S "p1")) (S "1")] ++
          ([S "|tier|X|", S "|start|"]).drop ((findStart [S "|tier|X|", S "|start|"]).getD 0) :=
  ⟨by decide, insert_both_players _ _ _ (by decide)⟩

/-- C6 fails as stated: a p2 player-record line with exactly five pipe
fields is padded to six by the rewrite even though only a p1-name override
was supplied, so it is not byte-identical to the input. -/
theorem override_p1name_pads_p2_counterexample :
    override_players [S "|player|p2|B|"] (some (S "X")) none none none =
      [S "|player|p1|X|1|", S "|player|p2|B||"] ∧
      (S "|player|p2|B||" : PyStr) ≠ S "|player|p2|B|" := by
  exact ⟨by decide, by decide⟩

/-- C6 (amended): provided every player-record line splits into at least
six pipe fields, rewriting with only a p1-name override leaves every p2
player-record line, every avatar field, and every non-player line
byte-identical and in order: matched p1 lines get exactly field index 3
replaced, and when no p1 line exists a single synthesized p1 line is
inserted at the start-record anchor. -/
theorem override_p1name_frame (lines : List PyStr) (n : PyStr)
    (hf : ∀ l ∈ lines,
        (pyStartsWith (S "|player|p1|") l = true ∨
          pyStartsWith (S "|player|p2|") l = true) →
        6 ≤ (pySplit '|' l).length) :
    override_players lines (some n) none none none =
      (if lines.any (fun l => pyStartsWith (S "|player|p1|") l) then
        lines.map (fun l =>
          if pyStartsWith (S "|player|p1|") l then pyJoin '|' ((pySplit '|' l).set 3 n)
          else l)
      else
        pyInsert ((findStart lines).getD 0)
          (mkPlayerLine (S "p1") (pyOr (some n) (S "p1")) (S "1")) lines) := by
  by_cases hany : lines.any (fun l => pyStartsWith (S "|player|p1|") l) = true
  · rw [if_pos hany]
    simp only [override_players, rewriteLines_spec, hany, Bool.not_true, Bool.false_and,
      Bool.not_false, Option.isSome_none, Bool.or_self, Bool.and_false, Bool.false_eq_true,
      if_false]
    apply map_congr_mem
    intro l hl
    by_cases h1 : pyStartsWith (S "|player|p1|") l = true
    · simp only [h1, if_true]
      exact fix_player_line_name (hf l hl (Or.inl h1)) n
    · have h1' : pyStartsWith (S "|player|p1|") l = false := by
        cases hh : pyStartsWith (S "|player|p1|") l with
        | false => rfl
        | true => exact absurd hh h1
      by_cases h2 : pyStartsWith (S "|player|p2|") l = true
      · simp only [h1', Bool.false_eq_true, if_false, h2, if_true]
        exact fix_player_line_id (hf l hl (Or.inr h2))
      · have h2' : pyStartsWith (S "|player|p2|") l = false := by
          cases hh : pyStartsWith (S "|player|p2|") l with
          | false => rfl
          | true => exact absurd hh h2
        simp [h1', h2']
  · rw [if_neg hany]
    have hany' : lines.any (fun l => pyStartsWith (S "|player|p1|") l) = false := by
      cases hh : lines.any (fun l => pyStartsWith (S "|player|p1|") l) with
      | false => rfl
      | true => exact absurd hh hany
    have hnone : ∀ l ∈ lines, pyStartsWith (S "|player|p1|") l = false := by
      intro x hx
      have := List.any_eq_false.mp hany' x hx
      cases hh : pyStartsWith (S "|player|p1|") x with
      | false => rfl
      | true => exact absurd hh this
    have hmap : lines.map (fun ln =>
        if pyStartsWith (S "|player|p1|") ln then fix_player_line ln (some n) none
        else if pyStartsWith (S "|player|p2|") ln then fix_player_line ln none none
        else ln) = lines := by
      apply map_id_of_mem
      intro l hl
      by_cases h2 : pyStartsWith (S "|player|p2|") l = true
      · simp only [hnone l hl, Bool.false_eq_true, if_false, h2, if_true]
        exact fix_player_line_id (hf l hl (Or.inr h2))
      · have h2' : pyStartsWith (S "|player|p2|") l = false := by
          cases hh : pyStartsWith (S "|player|p2|") l with
          | false => rfl
          | true => exact absurd hh h2
        simp [hnone l hl, h2']
    simp only [override_players, rewriteLines_spec, hany', hmap, Bool.not_false,
      Option.isSome_some, Option.isSome_none, Bool.true_or, Bool.or_false, Bool.true_and,
      Bool.and_false, Bool.false_eq_true, if_false, if_true, pyOr]

theorem override_p1name_frame_witness :
    (∀ l ∈ [S "|player|p1|A|7|", S "|x|", S "|player|p2|B|9|"],
        (pyStartsWith (S "|player|p1|") l = true ∨
          pyStartsWith (S "|player|p2|") l = true) →
        6 ≤ (pySplit '|' l).length) ∧
      override_players [S "|player|p1|A|7|", S "|x|", S "|player|p2|B|9|"]
          (some (S "N")) none none none =
        (if ([S "|player|p1|A|7|", S "|x|", S "|player|p2|B|9|"]).any
            (fun l => pyStartsWith (S "|player|p1|") l) then
          ([S "|player|p1|A|7|", S "|x|", S "|player|p2|B|9|"]).map (fun l =>
            if pyStartsWith (S "|player|p1|") l then pyJoin '|' ((pySplit '|' l).set 3 (S "N"))
            else l)
        else
          pyInsert ((findStart [S "|player|p1|A|7|", S "|x|", S "|player|p2|B|9|"]).getD 0)
            (mkPlayerLine (S "p1") (pyOr (some (S "N")) (S "p1")) (S "1"))
            [S "|player|p1|A|7|", S "|x|", S "|player|p2|B|9|"]) :=
  ⟨by decide, override_p1name_frame _ _ (by decide)⟩

/-! ## Lemmas about the record builder -/

theorem bfalse {b : Bool} (h : ¬b = true) : b = false := by
  cases b with
  | false => rfl
  | true => exact absurd rfl h

theorem find?_append {α : Type} (p : α → Bool) (l1 l2 : List α) :
    (l1 ++ l2).find? p =
      (match l1.find? p with
        | some x => some x
        | none => l2.find? p) := by
  induction l1 with
  | nil => simp
  | cons a t ih =>
    by_cases h : p a = true
    · simp [List.find?_cons_of_pos _ h]
    · simp [List.find?_cons_of_neg _ h, ih]

theorem scanLine_p1_eq {st : ScanState} {l : PyStr}
    (h : pyStartsWith (S "|player|p1|") l = false) : (scanLine st l).p1 = st.p1 := by
  simp only [scanLine, h, Bool.false_eq_true, if_false]
  split_ifs <;> rfl

theorem scanLine_p1_keep {st : ScanState} {l : PyStr}
    (h1 : pyStartsWith (S "|player|p1|") l = true)
    (h2 : (fieldAt (pySplit '|' l) 3).isEmpty = true) : (scanLine st l).p1 = st.p1 := by
  simp [scanLine, h1, h2]

theorem scanLine_p1_set {st : ScanState} {l : PyStr}
    (h1 : pyStartsWith (S "|player|p1|") l = true)
    (h2 : (fieldAt (pySplit '|' l) 3).isEmpty = false) :
    (scanLine st l).p1 = fieldAt (pySplit '|' l) 3 := by
  simp [scanLine, h1, h2]

theorem scanLine_p2_eq {st : ScanState} {l : PyStr}
    (h : pyStartsWith (S "|player|p2|") l = false) : (scanLine st l).p2 = st.p2 := by
  simp only [scanLine, h, Bool.false_eq_true, if_false]
  split_ifs <;> rfl

theorem scanLine_p2_keep {st : ScanState} {l : PyStr}
    (h1 : pyStartsWith (S "|player|p2|") l = true)
    (h2 : (fieldAt (pySplit '|' l) 3).isEmpty = true) : (scanLine st l).p2 = st.p2 := by
  have h0 : pyStartsWith (S "|player|p1|") l = false :=
    not_starts_of_incomp (by decide) (by decide) h1
  simp [scanLine, h0, h1, h2]

theorem scanLine_p2_set {st : ScanState} {l : PyStr}
    (h1 : pyStartsWith (S "|player|p2|") l = true)
    (h2 : (fieldAt (pySplit '|' l) 3).isEmpty = false) :
    (scanLine st l).p2 = fieldAt (pySplit '|' l) 3 := by
  have h0 : pyStartsWith (S "|player|p1|") l = false :=
    not_starts_of_incomp (by decide) (by decide) h1
  simp [scanLine, h0, h1, h2]

theorem scanLine_fmt_eq {st : ScanState} {l : PyStr}
    (h : pyStartsWith (S "|tier|") l = false) : (scanLine st l).fmt = st.fmt := by
  simp only [scanLine, h, Bool.false_eq_true, if_false]
  split_ifs <;> rfl

theorem scanLine_fmt_keep {st : ScanState} {l : PyStr}
    (h1 : pyStartsWith (S "|tier|") l = true)
    (h2 : (fieldAt (pySplit '|' l) 2).isEmpty = true) : (scanLine st l).fmt = st.fmt := by
  have ha : pyStartsWith (S "|player|p1|") l = false :=
    not_starts_of_incomp (by decide) (by decide) h1
  have hb : pyStartsWith (S "|player|p2|") l = false :=
    not_starts_of_incomp (by decide) (by decide) h1
  simp [scanLine, ha, hb, h1, h2]

theorem scanLine_fmt_set {st : ScanState} {l : PyStr}
    (h1 : pyStartsWith (S "|tier|") l = true)
    (h2 : (fieldAt (pySplit '|' l) 2).isEmpty = false) :
    (scanLine st l).fmt = fieldAt (pySplit '|' l) 2 := by
  have ha : pyStartsWith (S "|player|p1|") l = false :=
    not_starts_of_incomp (by decide) (by decide) h1
  have hb : pyStartsWith (S "|player|p2|") l = false :=
    not_starts_of_incomp (by decide) (by decide) h1
  simp [scanLine, ha, hb, h1, h2]

theorem scanLine_ts_eq {st : ScanState} {l : PyStr}
    (h : pyStartsWith (S "|t:|") l = false) : (scanLine st l).ts = st.ts := by
  simp only [scanLine, h, Bool.and_false, Bool.false_eq_true, if_false]
  split_ifs <;> rfl

theorem scanLine_ts_some {st : ScanState} {l : PyStr} {t : PyStr}
    (hs : st.ts = some t) : (scanLine st l).ts = some t := by
  simp only [scanLine, hs, Option.isNone_some, Bool.false_and, Bool.false_eq_true, if_false]
  split_ifs <;> simp [hs]

theorem scanLine_ts_set {st : ScanState} {l : PyStr}
    (h : pyStartsWith (S "|t:|") l = true) (hn : st.ts = none) :
    (scanLine st l).ts = tsOfLine l := by
  have ha : pyStartsWith (S "|player|p1|") l = false :=
    not_starts_of_incomp (by decide) (by decide) h
  have hb : pyStartsWith (S "|player|p2|") l = false :=
    not_starts_of_incomp (by decide) (by decide) h
  have hc : pyStartsWith (S "|tier|") l = false :=
    not_starts_of_incomp (by decide) (by decide) h
  simp [scanLine, ha, hb, hc, h, hn]

theorem foldl_scan_p1 (lines : List PyStr) :
    ∀ st : ScanState, (lines.foldl scanLine st).p1 =
      (match lines.reverse.find? playerField1 with
        | some l => fieldAt (pySplit '|' l) 3
        | none => st.p1) := by
  induction lines with
  | nil => intro st; rfl
  | cons l ls ih =>
    intro st
    rw [List.foldl_cons, List.reverse_cons, find?_append, ih (scanLine st l)]
    cases hf : ls.reverse.find? playerField1 with
    | some x => rfl
    | none =>
      by_cases h1 : pyStartsWith (S "|player|p1|") l = true
      · cases hemp : (fieldAt (pySplit '|' l) 3).isEmpty with
        | true =>
          have hp : ¬playerField1 l = true := by simp [playerField1, h1, hemp]
          rw [List.find?_cons_of_neg _ hp, List.find?_nil, scanLine_p1_keep h1 hemp]
        | false =>
          have hp : playerField1 l = true := by simp [playerField1, h1, hemp]
          rw [List.find?_cons_of_pos _ hp, scanLine_p1_set h1 hemp]
      · have h1' := bfalse h1
        have hp : ¬playerField1 l = true := by simp [playerField1, h1']
        rw [List.find?_cons_of_neg _ hp, List.find?_nil, scanLine_p1_eq h1']

theorem foldl_scan_p2 (lines : List PyStr) :
    ∀ st : ScanState, (lines.foldl scanLine st).p2 =
      (match lines.reverse.find?
          playerField2 with
        | some l => fieldAt (pySplit '|' l) 3
        | none => st.p2) := by
  induction lines with
  | nil => intro st; rfl
  | cons l ls ih =>
    intro st
    rw [List.foldl_cons, List.reverse_cons, find?_append, ih (scanLine st l)]
    cases hf : ls.reverse.find?
        playerField2 with
    | some x => rfl
    | none =>
      by_cases h1 : pyStartsWith (S "|player|p2|") l = true
      · cases hemp : (fieldAt (pySplit '|' l) 3).isEmpty with
        | true =>
          have hp : ¬playerField2 l = true := by simp [playerField2, h1, hemp]
          rw [List.find?_cons_of_neg _ hp, List.find?_nil, scanLine_p2_keep h1 hemp]
        | false =>
          have hp : playerField2 l = true := by simp [playerField2, h1, hemp]
          rw [List.find?_cons_of_pos _ hp, scanLine_p2_set h1 hemp]
      · have h1' := bfalse h1
        have hp : ¬playerField2 l = true := by simp [playerField2, h1']
        rw [List.find?_cons_of_neg _ hp, List.find?_nil, scanLine_p2_eq h1']

theorem foldl_scan_fmt (lines : List PyStr) :
    ∀ st : ScanState, (lines.foldl scanLine st).fmt =
      (match lines.reverse.find? tierField with
        | some l => fieldAt (pySplit '|' l) 2
        | none => st.fmt) := by
  induction lines with
  | nil => intro st; rfl
  | cons l ls ih =>
    intro st
    rw [List.foldl_cons, List.reverse_cons, find?_append, ih (scanLine st l)]
    cases hf : ls.reverse.find? tierField with
    | some x => rfl
    | none =>
      by_cases h1 : pyStartsWith (S "|tier|") l = true
      · cases hemp : (fieldAt (pySplit '|' l) 2).isEmpty with
        | true =>
          have hp : ¬tierField l = true := by simp [tierField, h1, hemp]
          rw [List.find?_cons_of_neg _ hp, List.find?_nil, scanLine_fmt_keep h1 hemp]
        | false =>
          have hp : tierField l = true := by simp [tierField, h1, hemp]
          rw [List.find?_cons_of_pos _ hp, scanLine_fmt_set h1 hemp]
      · have h1' := bfalse h1
        have hp : ¬tierField l = true := by simp [tierField, h1']
        rw [List.find?_cons_of_neg _ hp, List.find?_nil, scanLine_fmt_eq h1']

theorem foldl_scan_ts (lines : List PyStr) :
    ∀ st : ScanState, (lines.foldl scanLine st).ts =
      (match st.ts with
        | some t => some t
        | none => (lines.filterMap tsTry).head?) := by
  induction lines with
  | nil =>
    intro st
    cases hs : st.ts with
    | some t => simp [hs]
    | none => simp [hs]
  | cons l ls ih =>
    intro st
    rw [List.foldl_cons, ih (scanLine st l)]
    cases hs : st.ts with
    | some t => rw [scanLine_ts_some hs]
    | none =>
      by_cases ht : pyStartsWith (S "|t:|") l = true
      · rw [scanLine_ts_set ht hs]
        simp only [List.filterMap_cons, tsTry, ht, if_true]
        cases hts : tsOfLine l <;> simp
      · have ht' := bfalse ht
        rw [scanLine_ts_eq ht', hs]
        simp only [List.filterMap_cons, tsTry, ht', Bool.false_eq_true, if_false]

/-- C1 fails as stated: the extraction loop keeps overwriting, so with two
tier lines the format comes from the second (last) one, not the first. -/
theorem build_first_match_counterexample :
    (build_replay_object [S "|tier|A|", S "|tier|B|"] (S "r") (S "NOW")).format = S "B" ∧
      (S "B" : PyStr) ≠ S "A" :=
  ⟨by decide, by decide⟩

/-- C1 (amended): the Record Builder extracts at most one value per field
using last-match-wins: player1/player2 come from the last player-record
line of the respective side whose pipe field index 3 is non-empty (else
the defaults), and format from the last tier line whose pipe field index 2
is non-empty (else the default). -/
theorem build_fields_last_match (lines : List PyStr) (roomid now : PyStr) :
    (build_replay_object lines roomid now).p1 =
        (match lines.reverse.find? playerField1 with
          | some l => fieldAt (pySplit '|' l) 3
          | none => S "p1") ∧
      (build_replay_object lines roomid now).p2 =
        (match lines.reverse.find?
            playerField2 with
          | some l => fieldAt (pySplit '|' l) 3
          | none => S "p2") ∧
      (build_replay_object lines roomid now).format =
        (match lines.reverse.find? tierField with
          | some l => fieldAt (pySplit '|' l) 2
          | none => S "Custom Game") := by
  refine ⟨?_, ?_, ?_⟩
  · simp only [build_replay_object]
    rw [foldl_scan_p1]
  · simp only [build_replay_object]
    rw [foldl_scan_p2]
  · simp only [build_replay_object]
    rw [foldl_scan_fmt]

/-- C2 fails as stated: when the first `|t:|` line fails to parse, the
timestamp is taken from a later parsable `|t:|` line rather than falling
back to the current time. -/
theorem timestamp_first_line_counterexample :
    (build_replay_object [S "|t:|x|", S "|t:|0|"] (S "r") (S "NOW")).timestamp =
        S "Thu Jan 01 1970 00:00:00" ∧
      (S "Thu Jan 01 1970 00:00:00" : PyStr) ≠ S "NOW" :=
  ⟨by decide, by decide⟩

/-- C2 (amended): the timestamp comes from the first `|t:|` line whose
pipe field index 2 parses as an in-range integer (each failing `|t:|` line
is skipped, the failure recovered locally); if none parses or none exists,
the current UTC time is used. -/
theorem build_timestamp_first_success (lines : List PyStr) (roomid now : PyStr) :
    (build_replay_object lines roomid now).timestamp =
      ((lines.filterMap tsTry).head?).getD now := by
  simp only [build_replay_object]
  rw [foldl_scan_ts]

/-! ## The awaiting-header state (C9) -/

/-- C9 fails as stated: from the awaiting-header state, a line that trims
to the end marker is non-empty after trimming, yet it does not become the
header — it finalizes the block (with the sentinel header) and leaves the
block. -/
theorem awaiting_header_end_marker_counterexample :
    stepMarked ⟨true, true, none, []⟩ (S "]]]]]") =
        (⟨false, false, none, []⟩, [⟨S "UNKNOWN_MATCHUP", []⟩]) ∧
      (stepMarked ⟨true, true, none, []⟩ (S "]]]]]")).1.header ≠ some (pyStrip (S "]]]]]")) ∧
      (pyStrip (S "]]]]]")).isEmpty = false :=
  ⟨by decide, by decide, by decide⟩

/-- C9 (amended): in the awaiting-header state, a line that is non-empty
after trimming and does not trim to the end marker becomes the header and
the segmenter moves to the collecting state; a blank line is skipped
without leaving the awaiting-header state. -/
theorem awaiting_header_step (st : MState) (line : PyStr) (h1 : st.in_block = true)
    (h2 : st.waiting_for_header = true) (h3 : pyStrip line ≠ SEND) :
    stepMarked st line =
      (if (pyStrip line).isEmpty then (st, [])
      else ({ st with header := some (pyStrip line), waiting_for_header := false }, [])) := by
  simp [stepMarked, h1, h2, h3]

theorem awaiting_header_step_witness :
    (awaitSt.in_block = true ∧ awaitSt.waiting_for_header = true ∧
      pyStrip (S " A vs B ") ≠ SEND) ∧
      stepMarked awaitSt (S " A vs B ") =
        (if (pyStrip (S " A vs B ")).isEmpty then (awaitSt, [])
        else ({ awaitSt with header := some (pyStrip (S " A vs B ")), waiting_for_header := false }, [])) :=
  ⟨⟨rfl, rfl, by decide⟩, awaiting_header_step _ _ rfl rfl (by decide)⟩

